import Mathlib

/-!
Verification development for the FBref scraping / normalization pipeline
(`src/main.py`).  The Python pipeline is shallowly embedded: DataFrames
become column-major lists of named cell columns, pandas operations become
explicit list functions, and the fallible scraping control flow becomes a
function over an explicit environment describing the outcome of each
external operation.
-/

namespace Fbref

/-- A cell of a DataFrame: raw text, a parsed number, or a missing value
(pandas `NaN`). -/
inductive Cell where
  | text (s : String)
  | num (q : ℚ)
  | missing
deriving DecidableEq, Repr

/-- Column-major DataFrame: a list of (column name, cells) pairs.
Row alignment is positional, mirroring the RangeIndex the pipeline
guarantees via `reset_index(drop=True)`. -/
structure DataFrame where
  cols : List (String × List Cell)
deriving DecidableEq, Repr

/-- The number of rows a frame contributes to `pd.concat`: the length of
its (rectangular) columns, taken as the maximum column length. -/
def dfHeight (df : DataFrame) : Nat :=
  (df.cols.map (fun c => c.2.length)).foldr max 0

/-- Decimal-digit test. -/
def isDigit (c : Char) : Bool :=
  decide ('0' ≤ c ∧ c ≤ '9')

/-- Numeric value of a digit list, most significant first. -/
def digitsVal (l : List Char) : Nat :=
  l.foldl (fun a c => a * 10 + (c.toNat - 48)) 0

/-- Parse an unsigned decimal literal (digits with at most one dot,
at least one digit). Embeds the decimal-literal fragment of
`pd.to_numeric`'s parser. -/
def parseUnsigned (l : List Char) : Option ℚ :=
  if l.contains '.' then
    let ip := l.takeWhile (fun c => c ≠ '.')
    let fp := (l.dropWhile (fun c => c ≠ '.')).tail
    if fp.contains '.' then none
    else if ip.all isDigit ∧ fp.all isDigit ∧ (ip ≠ [] ∨ fp ≠ []) then
      some ((digitsVal ip : ℚ) + (digitsVal fp : ℚ) / (10 : ℚ) ^ fp.length)
    else none
  else if l ≠ [] ∧ l.all isDigit then some (digitsVal l : ℚ)
  else none

/-- Parse a signed decimal literal after trimming spaces; `none` models a
`ValueError` inside `pd.to_numeric`, which `errors` set to coerce turns
into `NaN`. -/
def parseNum (s : String) : Option ℚ :=
  match (s.data.filter (fun c => c ≠ ' ')).head?, s.data.filter (fun c => c ≠ ' ') with
  | some '-', _ :: rest => (parseUnsigned rest).map (fun q => -q)
  | some '+', _ :: rest => parseUnsigned rest
  | _, l => parseUnsigned l

/-- `pd.to_numeric(col, errors='coerce')` on one cell: text parses or
degrades to missing; numbers pass through; missing stays missing. -/
def toNumericCell : Cell → Cell
  | .text s => match parseNum s with
      | some q => .num q
      | none => .missing
  | .num q => .num q
  | .missing => .missing

/-- Columns of all frames appended in input order, each column padded with
missing values up to the common maximal height — the outer row-index
alignment `pd.concat` with `axis` 1 performs on RangeIndexes of unequal
lengths. -/
def concatPad (dfs : List DataFrame) : List (String × List Cell) :=
  let h := (dfs.map dfHeight).foldr max 0
  dfs.flatMap (fun df =>
    df.cols.map (fun c => (c.1, c.2 ++ List.replicate (h - c.2.length) Cell.missing)))

/-- `df.columns.duplicated` with keep set to first: keep a column iff its
name has not been seen to its left. -/
def dedupFirst (seen : List String) : List (String × List Cell) → List (String × List Cell)
  | [] => []
  | c :: rest =>
      if c.1 ∈ seen then dedupFirst seen rest
      else c :: dedupFirst (c.1 :: seen) rest

/-- Apply a cell transformation to every column of index at least `k`
(a positional `columns[k:]` span), leaving the first `k` columns
untouched. -/
def coerceFromIdx (f : Cell → Cell) (k : Nat) : List (String × List Cell) → List (String × List Cell)
  | [] => []
  | c :: rest =>
      match k with
      | 0 => (c.1, c.2.map f) :: coerceFromIdx f 0 rest
      | k' + 1 => c :: coerceFromIdx f k' rest

/-- Apply `pd.to_numeric` to every column of index at least `k`
(the pipeline's `columns[7:]` span). -/
def numericFrom (k : Nat) (cols : List (String × List Cell)) : List (String × List Cell) :=
  coerceFromIdx toNumericCell k cols

/-- The merge step shared by `creacion_df_general_fbref` (src/main.py
lines 696-699) and `creacion_df_porteros_fbref` (lines 738-740):
`pd.concat(dfs, axis=1)`, then drop later columns with duplicated names,
then coerce every column past the seven identity columns to numeric. -/
def merge_concat_fbref (dfs : List DataFrame) : DataFrame :=
  ⟨numericFrom 7 (dedupFirst [] (concatPad dfs))⟩

/-- The position vocabulary of `procesar_posiciones` (src/main.py lines
480-486), applied by `Series.replace`: an exact match is mapped, any
other value is left unchanged. -/
def posMapping (s : String) : String :=
  if s = "MF" then "Midfielder"
  else if s = "DF" then "Defender"
  else if s = "FW" then "Forward"
  else if s = "GK" then "Goalkeeper"
  else s

/-- `df[columna].str[:2].replace(mapping)` on one cell value. -/
def posicion_principal (s : String) : String :=
  posMapping ⟨s.data.take 2⟩

/-- `df[columna].str[3:].replace(mapping)` on one cell value. -/
def posicion_2 (s : String) : String :=
  posMapping ⟨s.data.drop 3⟩

/-- Lift a string transformation to a cell; a non-string cell under
`.str` accessors becomes missing in pandas. -/
def strCell (f : String → String) : Cell → Cell
  | .text s => .text (f s)
  | _ => .missing

/-- `procesar_posiciones` (src/main.py lines 467-497) at frame level:
derive the two role columns from `columna`, append them, drop the
original column. -/
def procesar_posiciones (df : DataFrame) (columna : String) : DataFrame :=
  let source : List Cell :=
    ((df.cols.find? (fun c => c.1 = columna)).map (fun c => c.2)).getD []
  ⟨df.cols.filter (fun c => c.1 ≠ columna)
    ++ [("Posicion_principal", source.map (strCell posicion_principal)),
        ("Posicion_2", source.map (strCell posicion_2))]⟩

/-- A raw header as delivered by the scraper: single level, or a
two-level pandas MultiIndex of (group label, field label) pairs. -/
inductive Header where
  | single (labels : List String)
  | two (labels : List (String × String))
deriving DecidableEq, Repr

/-- Number of columns a header describes. -/
def headerWidth : Header → Nat
  | .single ls => ls.length
  | .two ls => ls.length

/-- The flat column keys produced by `format_dataframe_columns`
(src/main.py lines 144-165): two-level headers become
field-label, space, open paren, group label, space, dash, space,
category tag, close paren; single-level headers become
label, space, open paren, category tag, close paren. -/
def format_header (h : Header) (stat_category : String) : List String :=
  match h with
  | .single ls => ls.map (fun col => col ++ " (" ++ stat_category ++ ")")
  | .two ls => ls.map (fun col => col.2 ++ " (" ++ col.1 ++ " - " ++ stat_category ++ ")")

/-- The two-level key format in isolation. -/
def formatKeyTwo (group field stat_category : String) : String :=
  field ++ " (" ++ group ++ " - " ++ stat_category ++ ")"

/-- Split a character list at the first occurrence of `c`: the part
before it and the part after it; `none` when `c` is absent. -/
def splitAtChar (c : Char) : List Char → Option (List Char × List Char)
  | [] => none
  | a :: rest =>
      if a = c then some ([], rest)
      else (splitAtChar c rest).map (fun p => (a :: p.1, p.2))

/-- Modelled from the spec: re-derive the (group label, field label) pair
from a generated two-level key by cutting at the first open paren and,
inside it, at the first dash, dropping the single separating space before
each delimiter.  The source never re-parses keys; §8 of the spec states
the round trip as the property to check, so the parser follows the key
format of `format_dataframe_columns`. -/
def parseKeyTwo (s : String) : Option (String × String) :=
  match splitAtChar '(' s.data with
  | none => none
  | some (pre, rest) =>
      match splitAtChar '-' rest with
      | none => none
      | some (pre2, _) => some (⟨pre2.dropLast⟩, ⟨pre.dropLast⟩)

/-- `col.replace` with the comma-to-dot and percent-to-empty regex map:
every comma becomes a dot, every percent sign is deleted. -/
def replaceCommaPercent (s : String) : String :=
  ⟨(s.data.map (fun c => if c = ',' then '.' else c)).filter (fun c => c ≠ '%')⟩

/-- One cell under the replace-then-`pd.to_numeric` lambda of the
`convertir_columnas_numericas` functions. -/
def coerceCellCP : Cell → Cell
  | .text s => match parseNum (replaceCommaPercent s) with
      | some q => .num q
      | none => .missing
  | .num q => .num q
  | .missing => .missing

/-- `df.columns.get_loc(columna_inicio)`: index of the first column with
that name. -/
def getLocCol (cols : List (String × List Cell)) (n : String) : Nat :=
  cols.findIdx (fun c => c.1 = n)

/-- `convertir_columnas_numericas_goalkeepers` (src/main.py lines
750-766): coerce every column strictly after `columna_inicio` to the end. -/
def convertir_columnas_numericas_goalkeepers (df : DataFrame) (columna_inicio : String) : DataFrame :=
  ⟨coerceFromIdx coerceCellCP (getLocCol df.cols columna_inicio + 1) df.cols⟩

/-- `convertir_columnas_numericas_jugadores` (src/main.py lines 768-786):
coerce every column strictly after `columna_inicio` up to, but not
including, the last two columns (the `columns[k+1 : -2]` span). -/
def convertir_columnas_numericas_jugadores (df : DataFrame) (columna_inicio : String) : DataFrame :=
  ⟨coerceFromIdx coerceCellCP (getLocCol df.cols columna_inicio + 1)
      (df.cols.take (df.cols.length - 2))
    ++ df.cols.drop (df.cols.length - 2)⟩

/-- Uppercase Latin letter test, the character class of the nationality
pattern. -/
def isUpperAZ (c : Char) : Bool :=
  decide ('A' ≤ c ∧ c ≤ 'Z')

/-- The trailing run of uppercase letters of a raw cell. -/
def trailingUpper (s : String) : List Char :=
  (s.data.reverse.takeWhile isUpperAZ).reverse

/-- `str.extract` with the anchored uppercase-run pattern used on the
`Nacionalidad` column (src/main.py line 457): the trailing uppercase
token when the cell ends in one, missing otherwise. -/
def extract_nacionalidad (s : String) : Option String :=
  if trailingUpper s = [] then none else some ⟨trailingUpper s⟩

/-- A table as returned by `pandas.read_html`: a possibly two-level
header and row-major raw text cells. -/
structure RawDf where
  header : Header
  rows : List (List String)
deriving DecidableEq, Repr

/-- A flat frame: single-level column names and row-major cells. -/
structure SDF where
  names : List String
  rows : List (List String)
deriving DecidableEq, Repr

/-- The `table` element found inside the HTML comment: whether a `tbody`
is present, the `scope=col` heading texts, and the extracted body rows. -/
structure ParsedTable where
  hasTbody : Bool
  headings : List String
  rows : List (List String)
deriving DecidableEq, Repr

/-- Outcome of every external operation `extract_tables` performs: URL
resolution, `pandas.read_html` (none models a raised exception), the
HTTP fetch, the comment scan, and the table element inside the comment. -/
structure FetchEnv where
  urlOk : Bool
  urlBig5 : Bool
  readHtml : Option (List RawDf)
  httpOk : Bool
  commentFound : Bool
  tableElem : Option ParsedTable
deriving DecidableEq, Repr

/-- `format_dataframe_columns` applied to a `read_html` table. -/
def formatRaw (t : RawDf) (stat : String) : SDF :=
  ⟨format_header t.header stat, t.rows⟩

/-- `format_dataframe_columns` applied to a flat frame. -/
def formatFlat (d : SDF) (stat : String) : SDF :=
  ⟨format_header (.single d.names) stat, d.rows⟩

/-- Lower-case the characters of a name, for the case-insensitive
`str.contains` column drops. -/
def lowerChars (s : String) : List Char :=
  s.data.map Char.toLower

/-- Boolean test that `pat` occurs as a contiguous run at the front of
`l`. -/
def leadsWith : List Char → List Char → Bool
  | [], _ => true
  | _ :: _, [] => false
  | a :: as, b :: bs => a = b && leadsWith as bs

/-- Boolean substring test. -/
def containsSub (pat : List Char) : List Char → Bool
  | [] => pat.isEmpty
  | b :: bs => leadsWith pat (b :: bs) || containsSub pat bs

/-- `df[df.iloc[:, 0] != 'Rk']`: drop leaked repeated-header rows. -/
def rkRowFilter (d : SDF) : SDF :=
  ⟨d.names, d.rows.filter (fun r => r.headD "" ≠ "Rk")⟩

/-- `df.loc[:, ~df.columns.str.contains(pat, case=False)]`: drop every
column whose name contains `pat` case-insensitively, together with its
cells in every row. -/
def dropNameContains (pat : List Char) (d : SDF) : SDF :=
  ⟨d.names.filter (fun n => ¬ containsSub pat (lowerChars n)),
   d.rows.map (fun r =>
     ((d.names.zip r).filter (fun x => ¬ containsSub pat (lowerChars x.1))).map (fun x => x.2))⟩

/-- The cleanup shared by both strategies (src/main.py lines 562-564 and
609-611): format the columns, drop `Rk` rows, drop `matches` and `Rk`
columns.  When the formatted frame has no columns, `df.iloc[:, 0]`
raises and the handler returns the frame as it stands at that point. -/
def postProcess (stat : String) (d : SDF) : SDF :=
  let f := formatFlat d stat
  if f.names.length = 0 then f
  else dropNameContains "rk".data (dropNameContains "matches".data (rkRowFilter f))

/-- The direct-strategy branch body for a `Big5` URL (src/main.py lines
556-566), starting from `tables[0]`. -/
def directBranch (stat : String) (t : RawDf) : SDF :=
  let f := formatRaw t stat
  if f.names.length = 0 then f
  else dropNameContains "rk".data (dropNameContains "matches".data (rkRowFilter f))

/-- Python `list.insert` as used on frame columns and rows. -/
def insertAt {α : Type} (n : Nat) (x : α) (l : List α) : List α :=
  l.take n ++ x :: l.drop n

/-- `df.insert(4, 'Comp', [league] * len(df))`. -/
def insertComp (league : String) (d : SDF) : SDF :=
  ⟨insertAt 4 "Comp" d.names, d.rows.map (fun r => insertAt 4 league r)⟩

/-- The comment-embedded fallback strategy (src/main.py lines 573-620).
Failures before the `pd.DataFrame` construction leave the table binding
absent; the `insert` of the `Comp` column raises when the frame has
fewer than four columns or already holds a `Comp` column, and the
handler then returns the frame constructed so far. -/
def fallback_extract (league stat : String) (env : FetchEnv) : Option SDF :=
  if env.httpOk = false then none
  else if env.commentFound = false then none
  else
    match env.tableElem with
    | none => none
    | some t =>
        if t.hasTbody = false then none
        else
          let w := (t.rows.map List.length).foldr max 0
          if ¬(t.rows = [] ∨ w = t.headings.length) then none
          else
            let df0 : SDF :=
              ⟨t.headings,
               t.rows.map (fun r => r ++ List.replicate (t.headings.length - r.length) "0")⟩
            if league ≠ "Big 5 European Leagues" then
              if t.headings.length < 4 ∨ t.headings.contains "Comp" then some df0
              else some (postProcess stat (insertComp league df0))
            else some (postProcess stat df0)

/-- `extract_tables` (src/main.py lines 523-620) over a fetch
environment: URL resolution, the direct `read_html` strategy taken only
for `Big5` URLs with a nonempty table list, and otherwise the
comment-embedded fallback. -/
def extract_tables (league stat : String) (env : FetchEnv) : Option SDF :=
  if env.urlOk = false then none
  else
    match env.readHtml with
    | none => none
    | some tables =>
        if env.urlBig5 then
          match tables with
          | [] => fallback_extract league stat env
          | t :: _ => some (directBranch stat t)
        else fallback_extract league stat env

/-! ## Theorems -/

/-- C3, counterexample.  `procesar_posiciones` leaves the secondary role
of the one-token code `DF` as the empty string: `Series.replace` maps
only exact vocabulary matches and the sliced secondary token of `DF` is
empty, so no explicit none marker is ever produced. -/
theorem posicion_2_DF_is_empty_string :
    posicion_2 "DF" = "" ∧ posicion_2 "DF" ≠ "none" ∧ posicion_2 "DF" ≠ "None" := by
  refine ⟨by decide, by decide, by decide⟩

/-- C3, amended.  Position decomposition maps `MF,FW` to
Midfielder/Forward and `DF` to Defender, and for every raw code with no
secondary token (at most three characters, so the slice from index three
is empty) the secondary role is the empty string, not an explicit none
marker. -/
theorem procesar_posiciones_roles (s : String) (h : s.data.length ≤ 3) :
    posicion_principal "MF,FW" = "Midfielder" ∧ posicion_2 "MF,FW" = "Forward"
    ∧ posicion_principal "DF" = "Defender" ∧ posicion_2 s = "" := by
  refine ⟨by decide, by decide, by decide, ?_⟩
  unfold posicion_2
  rw [List.drop_eq_nil_of_le h]
  decide

/-- Witness for the amended C3 theorem at the code `DF`. -/
theorem procesar_posiciones_roles_witness :
    posicion_principal "MF,FW" = "Midfielder" ∧ posicion_2 "MF,FW" = "Forward"
    ∧ posicion_principal "DF" = "Defender" ∧ posicion_2 "DF" = "" :=
  procesar_posiciones_roles "DF" (by decide)

/-- C4.  Header flattening produces, in column order, the key
label, space, open paren, tag, close paren for a single-level header,
and field, space, open paren, group, space, dash, space, tag,
close paren for a two-level header, at every column position. -/
theorem format_header_keys (ls : List String) (ps : List (String × String)) (tag : String) (i : Nat) :
    (format_header (.single ls) tag).length = ls.length
    ∧ (format_header (.two ps) tag).length = ps.length
    ∧ (format_header (.single ls) tag)[i]?
        = ls[i]?.map (fun col => col ++ " (" ++ tag ++ ")")
    ∧ (format_header (.two ps) tag)[i]?
        = ps[i]?.map (fun col => col.2 ++ " (" ++ col.1 ++ " - " ++ tag ++ ")") := by
  refine ⟨?_, ?_, ?_, ?_⟩ <;>
    simp [format_header, List.getElem?_map]

/-- C5, counterexample.  A two-level header whose two columns carry the
same (group, field) pair generates two identical keys and both columns
are kept: flatten does not drop the second occurrence and the result's
keys are not pairwise distinct. -/
theorem format_header_collision_kept :
    format_header (.two [("G", "A"), ("G", "A")]) "T" = ["A (G - T)", "A (G - T)"]
    ∧ ¬ (format_header (.two [("G", "A"), ("G", "A")]) "T").Nodup := by
  refine ⟨by decide, by decide⟩

/-- C5, amended.  Flatten never drops a column: the flattened key list
always has exactly one key per header column, so colliding keys are both
retained and key uniqueness is not an invariant of the flatten result
(duplicate names are removed only later, by the merge step). -/
theorem format_header_length (h : Header) (tag : String) :
    (format_header h tag).length = headerWidth h := by
  cases h <;> simp [format_header, headerWidth]

theorem le_foldr_max {l : List Nat} {x : Nat} (hx : x ∈ l) : x ≤ l.foldr max 0 := by
  induction l with
  | nil => cases hx
  | cons a rest ih =>
      rcases List.mem_cons.mp hx with h | h
      · subst h; exact le_max_left _ _
      · exact le_trans (ih h) (le_max_right _ _)

theorem mem_concatPad_length {dfs : List DataFrame} {c : String × List Cell}
    (hc : c ∈ concatPad dfs) : c.2.length = (dfs.map dfHeight).foldr max 0 := by
  unfold concatPad at hc
  rcases List.mem_flatMap.mp hc with ⟨df, hdf, hcdf⟩
  rcases List.mem_map.mp hcdf with ⟨c0, hc0, hc0e⟩
  have hlen : c0.2.length ≤ dfHeight df :=
    le_foldr_max (List.mem_map.mpr ⟨c0, hc0, rfl⟩)
  have hh : dfHeight df ≤ (dfs.map dfHeight).foldr max 0 :=
    le_foldr_max (List.mem_map.mpr ⟨df, hdf, rfl⟩)
  subst hc0e
  simp only [List.length_append, List.length_replicate]
  omega

theorem mem_dedupFirst {l : List (String × List Cell)} :
    ∀ {seen : List String} {c : String × List Cell}, c ∈ dedupFirst seen l → c ∈ l := by
  induction l with
  | nil => intro seen c hc; cases hc
  | cons a rest ih =>
      intro seen c hc
      unfold dedupFirst at hc
      by_cases ha : a.1 ∈ seen
      · rw [if_pos ha] at hc
        exact List.mem_cons_of_mem _ (ih hc)
      · rw [if_neg ha] at hc
        rcases List.mem_cons.mp hc with h | h
        · exact h ▸ List.mem_cons_self _ _
        · exact List.mem_cons_of_mem _ (ih h)

theorem mem_coerceFromIdx {f : Cell → Cell} {l : List (String × List Cell)} :
    ∀ {k : Nat} {c : String × List Cell}, c ∈ coerceFromIdx f k l →
      ∃ c' ∈ l, c.1 = c'.1 ∧ c.2.length = c'.2.length := by
  induction l with
  | nil => intro k c hc; cases hc
  | cons a rest ih =>
      intro k c hc
      match k with
      | 0 =>
          rcases List.mem_cons.mp hc with h | h
          · exact ⟨a, List.mem_cons_self _ _, by simp [h]⟩
          · rcases ih h with ⟨c', hc', he⟩
            exact ⟨c', List.mem_cons_of_mem _ hc', he⟩
      | k' + 1 =>
          rcases List.mem_cons.mp hc with h | h
          · exact ⟨a, List.mem_cons_self _ _, by simp [h]⟩
          · rcases ih h with ⟨c', hc', he⟩
            exact ⟨c', List.mem_cons_of_mem _ hc', he⟩

/-- C1, counterexample.  Merging two CategorySets of unequal row counts
(one and two rows) neither errors nor refuses: `pd.concat` aligns the
RangeIndexes by outer union, so the merge returns a unified frame of two
rows in which the shorter input column is padded with a missing value. -/
theorem merge_unequal_rows_pads :
    dfHeight (⟨[("A", [Cell.text "1"])]⟩ : DataFrame) = 1
    ∧ dfHeight (⟨[("B", [Cell.text "2", Cell.text "3"])]⟩ : DataFrame) = 2
    ∧ merge_concat_fbref
        [⟨[("A", [Cell.text "1"])]⟩, ⟨[("B", [Cell.text "2", Cell.text "3"])]⟩]
      = ⟨[("A", [Cell.text "1", Cell.missing]),
          ("B", [Cell.text "2", Cell.text "3"])]⟩ := by
  refine ⟨by decide, by decide, by decide⟩

/-- C1, amended.  The merge step never reports a row-count mismatch: it
always produces a unified frame in which every surviving column is
padded with missing values up to the maximal input row count, so unequal
inputs are silently padded rather than rejected. -/
theorem merge_concat_pads_to_max (dfs : List DataFrame) (c : String × List Cell)
    (hc : c ∈ (merge_concat_fbref dfs).cols) :
    c.2.length = (dfs.map dfHeight).foldr max 0 := by
  unfold merge_concat_fbref numericFrom at hc
  rcases mem_coerceFromIdx hc with ⟨c', hc', _, hlen⟩
  rw [hlen, mem_concatPad_length (mem_dedupFirst hc')]

/-- Witness for the amended C1 theorem on the unequal two-frame merge. -/
theorem merge_concat_pads_to_max_witness :
    (("A", [Cell.text "1", Cell.missing]) : String × List Cell).2.length
      = (([⟨[("A", [Cell.text "1"])]⟩,
           ⟨[("B", [Cell.text "2", Cell.text "3"])]⟩] : List DataFrame).map dfHeight).foldr max 0 :=
  merge_concat_pads_to_max _ _ (by decide)

theorem dedupFirst_filter_of_seen (l : List (String × List Cell)) :
    ∀ (seen : List String) (n : String), n ∈ seen →
      (dedupFirst seen l).filter (fun c => decide (c.1 = n)) = [] := by
  induction l with
  | nil => intro seen n _; rfl
  | cons c rest ih =>
      intro seen n hn
      unfold dedupFirst
      by_cases hc : c.1 ∈ seen
      · rw [if_pos hc]
        exact ih seen n hn
      · rw [if_neg hc]
        have hcn : ¬ (c.1 = n) := fun he => hc (he ▸ hn)
        simp only [List.filter_cons, decide_eq_true_eq, hcn, if_false]
        exact ih (c.1 :: seen) n (List.mem_cons_of_mem _ hn)

theorem dedupFirst_filter_eq_find (l : List (String × List Cell)) :
    ∀ (seen : List String) (n : String), n ∉ seen →
      (dedupFirst seen l).filter (fun c => decide (c.1 = n))
        = ((l.find? (fun c => decide (c.1 = n))).toList) := by
  induction l with
  | nil => intro seen n _; rfl
  | cons c rest ih =>
      intro seen n hn
      unfold dedupFirst
      by_cases hc : c.1 ∈ seen
      · rw [if_pos hc]
        have hcn : ¬ (c.1 = n) := fun he => hn (he ▸ hc)
        rw [List.find?_cons_of_neg _ (by simpa using hcn)]
        exact ih seen n hn
      · rw [if_neg hc]
        by_cases hcn : c.1 = n
        · rw [List.find?_cons_of_pos _ (by simpa using hcn)]
          simp only [List.filter_cons, decide_eq_true_eq, hcn, if_true, Option.toList_some]
          rw [dedupFirst_filter_of_seen rest (n :: seen) n (List.mem_cons_self _ _)]
        · rw [List.find?_cons_of_neg _ (by simpa using hcn)]
          simp only [List.filter_cons, decide_eq_true_eq, hcn, if_false]
          exact ih (c.1 :: seen) n (by
            intro hmem
            rcases List.mem_cons.mp hmem with h | h
            · exact hcn h.symm
            · exact hn h)

theorem coerceFromIdx_names (f : Cell → Cell) (l : List (String × List Cell)) :
    ∀ k : Nat, (coerceFromIdx f k l).map (fun c => c.1) = l.map (fun c => c.1) := by
  induction l with
  | nil => intro k; cases k <;> rfl
  | cons c rest ih =>
      intro k
      cases k with
      | zero => simp [coerceFromIdx, ih 0]
      | succ k' => simp [coerceFromIdx, ih k']

/-- C2.  Column resolution in the merge: whenever a canonical name
occurs among the concatenated columns, the deduplication step keeps
exactly one column of that name, namely the first occurrence in input
order with its values, and the final typing pass changes no column name
or position. -/
theorem merge_keeps_first_occurrence (dfs : List DataFrame) (n : String)
    (h : n ∈ (concatPad dfs).map (fun c => c.1)) :
    ((dedupFirst [] (concatPad dfs)).filter (fun c => decide (c.1 = n)))
        = ((concatPad dfs).find? (fun c => decide (c.1 = n))).toList
    ∧ (((dedupFirst [] (concatPad dfs)).filter (fun c => decide (c.1 = n))).length = 1)
    ∧ ((merge_concat_fbref dfs).cols.map (fun c => c.1)
        = (dedupFirst [] (concatPad dfs)).map (fun c => c.1)) := by
  have hfe := dedupFirst_filter_eq_find (concatPad dfs) [] n (by simp)
  refine ⟨hfe, ?_, ?_⟩
  · rw [hfe]
    rcases List.mem_map.mp h with ⟨c, hc, hcn⟩
    have : ((concatPad dfs).find? (fun c => decide (c.1 = n))).isSome := by
      rw [List.find?_isSome]
      exact ⟨c, hc, by simpa using hcn⟩
    rcases Option.isSome_iff_exists.mp this with ⟨c', hc'⟩
    simp [hc']
  · unfold merge_concat_fbref numericFrom
    exact coerceFromIdx_names _ _ _

/-- Witness for the C2 theorem: two frames both naming a column `N`;
the merge keeps the first frame's `N` column only. -/
theorem merge_keeps_first_occurrence_witness :
    ((dedupFirst [] (concatPad
        [⟨[("N", [Cell.text "a"]), ("X", [Cell.text "x"])]⟩,
         ⟨[("N", [Cell.text "b"])]⟩])).filter (fun c => decide (c.1 = "N")))
      = ((concatPad
        [⟨[("N", [Cell.text "a"]), ("X", [Cell.text "x"])]⟩,
         ⟨[("N", [Cell.text "b"])]⟩]).find? (fun c => decide (c.1 = "N"))).toList
    ∧ (((dedupFirst [] (concatPad
        [⟨[("N", [Cell.text "a"]), ("X", [Cell.text "x"])]⟩,
         ⟨[("N", [Cell.text "b"])]⟩])).filter (fun c => decide (c.1 = "N"))).length = 1)
    ∧ ((merge_concat_fbref
        [⟨[("N", [Cell.text "a"]), ("X", [Cell.text "x"])]⟩,
         ⟨[("N", [Cell.text "b"])]⟩]).cols.map (fun c => c.1)
        = (dedupFirst [] (concatPad
        [⟨[("N", [Cell.text "a"]), ("X", [Cell.text "x"])]⟩,
         ⟨[("N", [Cell.text "b"])]⟩])).map (fun c => c.1)) :=
  merge_keeps_first_occurrence
    [⟨[("N", [Cell.text "a"]), ("X", [Cell.text "x"])]⟩, ⟨[("N", [Cell.text "b"])]⟩]
    "N" (by decide)

theorem splitAtChar_append (c : Char) :
    ∀ (a b : List Char), c ∉ a → splitAtChar c (a ++ c :: b) = some (a, b) := by
  intro a
  induction a with
  | nil => intro b _; simp [splitAtChar]
  | cons x xs ih =>
      intro b hx
      have hxc : ¬ (x = c) := fun he => hx (he ▸ List.mem_cons_self _ _)
      have ihb := ih b (fun hm => hx (List.mem_cons_of_mem _ hm))
      simp only [List.cons_append, splitAtChar, if_neg hxc]
      rw [show xs.append (c :: b) = xs ++ c :: b from rfl, ihb]
      rfl

/-- C6.  For every two-level header whose field label contains no open
paren and whose group label contains no dash, re-deriving the
(group, field) pair from the generated key recovers exactly the original
pair: flatten followed by key parsing is lossless on delimiter-free
labels. -/
theorem flatten_key_roundtrip (group field tag : String)
    (hf : '(' ∉ field.data) (hg : '-' ∉ group.data) :
    parseKeyTwo (formatKeyTwo group field tag) = some (group, field) := by
  unfold parseKeyTwo formatKeyTwo
  have e1 : " (".data = [' ', '('] := rfl
  have e2 : " - ".data = [' ', '-', ' '] := rfl
  have e3 : ")".data = [')'] := rfl
  have hd : (field ++ " (" ++ group ++ " - " ++ tag ++ ")").data
      = (field.data ++ [' ']) ++ '(' ::
          ((group.data ++ [' ']) ++ '-' :: (' ' :: (tag.data ++ [')']))) := by
    simp [String.data_append, e1, e2, e3]
  rw [hd]
  have hf' : '(' ∉ field.data ++ [' '] := by
    intro hm
    rcases List.mem_append.mp hm with h | h
    · exact hf h
    · simp at h
  have hg' : '-' ∉ group.data ++ [' '] := by
    intro hm
    rcases List.mem_append.mp hm with h | h
    · exact hg h
    · simp at h
  rw [splitAtChar_append '(' _ _ hf']
  simp only
  rw [splitAtChar_append '-' _ _ hg']
  simp only [List.dropLast_concat]

/-- Witness for the C6 theorem on a real header key. -/
theorem flatten_key_roundtrip_witness :
    parseKeyTwo (formatKeyTwo "Performance" "Gls" "Standard Stats")
      = some ("Performance", "Gls") :=
  flatten_key_roundtrip "Performance" "Gls" "Standard Stats" (by decide) (by decide)

theorem coerceFromIdx_lengths (f : Cell → Cell) (l : List (String × List Cell)) :
    ∀ k : Nat, (coerceFromIdx f k l).map (fun c => c.2.length) = l.map (fun c => c.2.length) := by
  induction l with
  | nil => intro k; cases k <;> rfl
  | cons c rest ih =>
      intro k
      cases k with
      | zero => simp [coerceFromIdx, ih 0]
      | succ k' => simp [coerceFromIdx, ih k']

theorem coerceFromIdx_length (f : Cell → Cell) (l : List (String × List Cell)) (k : Nat) :
    (coerceFromIdx f k l).length = l.length := by
  have h := congrArg List.length (coerceFromIdx_names f l k)
  simpa using h

theorem coerceFromIdx_getElem (f : Cell → Cell) (l : List (String × List Cell)) :
    ∀ (k i : Nat), k ≤ i →
      (coerceFromIdx f k l)[i]? = (l[i]?).map (fun c => (c.1, c.2.map f)) := by
  induction l with
  | nil => intro k i _; cases k <;> simp [coerceFromIdx]
  | cons c rest ih =>
      intro k i hki
      cases k with
      | zero =>
          cases i with
          | zero => simp [coerceFromIdx]
          | succ j => simpa [coerceFromIdx] using ih 0 j (Nat.zero_le j)
      | succ k' =>
          cases i with
          | zero => omega
          | succ j =>
              simpa [coerceFromIdx] using ih k' j (Nat.le_of_succ_le_succ hki)

/-- C7.  The per-dataset numeric coercion functions preserve every
column name and every column's row count (no abort, no discarded row),
coerce exactly the cells in their positional span through the
replace-commas-and-percents-then-parse rule, and turn every cell whose
cleaned text still fails to parse into a missing value rather than zero. -/
theorem convertir_numericas_spec (df : DataFrame) (columna_inicio : String) (i : Nat) (s : String) :
    (convertir_columnas_numericas_goalkeepers df columna_inicio).cols.map (fun c => c.1)
        = df.cols.map (fun c => c.1)
    ∧ (convertir_columnas_numericas_goalkeepers df columna_inicio).cols.map (fun c => c.2.length)
        = df.cols.map (fun c => c.2.length)
    ∧ (convertir_columnas_numericas_jugadores df columna_inicio).cols.map (fun c => c.1)
        = df.cols.map (fun c => c.1)
    ∧ (convertir_columnas_numericas_jugadores df columna_inicio).cols.map (fun c => c.2.length)
        = df.cols.map (fun c => c.2.length)
    ∧ (getLocCol df.cols columna_inicio + 1 ≤ i →
        (convertir_columnas_numericas_goalkeepers df columna_inicio).cols[i]?
          = (df.cols[i]?).map (fun c => (c.1, c.2.map coerceCellCP)))
    ∧ (getLocCol df.cols columna_inicio + 1 ≤ i → i + 2 < df.cols.length →
        (convertir_columnas_numericas_jugadores df columna_inicio).cols[i]?
          = (df.cols[i]?).map (fun c => (c.1, c.2.map coerceCellCP)))
    ∧ (parseNum (replaceCommaPercent s) = none → coerceCellCP (.text s) = .missing)
    ∧ (∀ q : ℚ, parseNum (replaceCommaPercent s) = some q → coerceCellCP (.text s) = .num q) := by
  have hnJ : (convertir_columnas_numericas_jugadores df columna_inicio).cols.map (fun c => c.1)
      = df.cols.map (fun c => c.1) := by
    unfold convertir_columnas_numericas_jugadores
    rw [List.map_append, coerceFromIdx_names, ← List.map_append, List.take_append_drop]
  have hlJ : (convertir_columnas_numericas_jugadores df columna_inicio).cols.map (fun c => c.2.length)
      = df.cols.map (fun c => c.2.length) := by
    unfold convertir_columnas_numericas_jugadores
    rw [List.map_append, coerceFromIdx_lengths, ← List.map_append, List.take_append_drop]
  refine ⟨?_, ?_, hnJ, hlJ, ?_, ?_, ?_, ?_⟩
  · unfold convertir_columnas_numericas_goalkeepers
    exact coerceFromIdx_names _ _ _
  · unfold convertir_columnas_numericas_goalkeepers
    exact coerceFromIdx_lengths _ _ _
  · intro hk
    unfold convertir_columnas_numericas_goalkeepers
    exact coerceFromIdx_getElem _ _ _ _ hk
  · intro hk hi
    unfold convertir_columnas_numericas_jugadores
    have hilt : i < (coerceFromIdx coerceCellCP (getLocCol df.cols columna_inicio + 1)
        (df.cols.take (df.cols.length - 2))).length := by
      rw [coerceFromIdx_length, List.length_take]
      omega
    rw [List.getElem?_append, if_pos hilt]
    rw [coerceFromIdx_getElem _ _ _ _ hk]
    rw [List.getElem?_take, if_pos (by omega : i < df.cols.length - 2)]
  · intro hp
    simp [coerceCellCP, hp]
  · intro q hp
    simp [coerceCellCP, hp]

/-- Witness for the C7 theorem on a four-column frame with an
unparsable cell. -/
theorem convertir_numericas_spec_witness :
    (convertir_columnas_numericas_goalkeepers
        ⟨[("Player", [Cell.text "X"]), ("Val", [Cell.text "15%", Cell.text "abc"]),
          ("A", [Cell.text "1"]), ("B", [Cell.text "2"])]⟩ "Player").cols[1]?
      = some ("Val", [Cell.num 15, Cell.missing])
    ∧ (convertir_columnas_numericas_jugadores
        ⟨[("Player", [Cell.text "X"]), ("Val", [Cell.text "15%", Cell.text "abc"]),
          ("A", [Cell.text "1"]), ("B", [Cell.text "2"])]⟩ "Player").cols[1]?
      = some ("Val", [Cell.num 15, Cell.missing])
    ∧ coerceCellCP (.text "abc") = .missing := by
  have h := convertir_numericas_spec
    ⟨[("Player", [Cell.text "X"]), ("Val", [Cell.text "15%", Cell.text "abc"]),
      ("A", [Cell.text "1"]), ("B", [Cell.text "2"])]⟩ "Player" 1 "abc"
  refine ⟨?_, ?_, h.2.2.2.2.2.2.1 (by decide)⟩
  · rw [h.2.2.2.2.1 (by decide)]
    decide
  · rw [h.2.2.2.2.2.1 (by decide) (by decide)]
    decide

/-- C8.  Nationality extraction: a raw cell whose last character is an
uppercase letter yields the full nonempty trailing uppercase token — a
contiguous run at the very end of the cell that is maximal, since the
character just before it, when one exists, is not uppercase; a cell
with no trailing uppercase letter yields missing rather than an
exception, as the extraction is total. -/
theorem extract_nacionalidad_spec (s : String) :
    (∀ c : Char, s.data.getLast? = some c → isUpperAZ c = true →
      ∃ t : String, extract_nacionalidad s = some t ∧ t.data ≠ []
        ∧ t.data.all isUpperAZ = true
        ∧ ∃ pre, s.data = pre ++ t.data
            ∧ (pre.getLast? = none
               ∨ ∃ c0 : Char, pre.getLast? = some c0 ∧ isUpperAZ c0 = false))
    ∧ ((∀ c : Char, s.data.getLast? = some c → isUpperAZ c = false) →
        extract_nacionalidad s = none) := by
  constructor
  · intro c hlast hupper
    have hrev : s.data.reverse.head? = some c := by
      rw [List.head?_reverse]; exact hlast
    have hne : trailingUpper s ≠ [] := by
      unfold trailingUpper
      intro hcon
      match hr : s.data.reverse with
      | [] => rw [hr] at hrev; simp at hrev
      | c' :: rest =>
          rw [hr] at hrev hcon
          have hcc : c' = c := by simpa using hrev
          rw [List.takeWhile_cons, hcc, hupper] at hcon
          simp at hcon
    refine ⟨⟨trailingUpper s⟩, ?_, hne, ?_, ?_⟩
    · unfold extract_nacionalidad
      rw [if_neg hne]
    · rw [List.all_eq_true]
      intro x hx
      unfold trailingUpper at hx
      exact List.mem_takeWhile_imp (List.mem_reverse.mp hx)
    · refine ⟨(s.data.reverse.dropWhile isUpperAZ).reverse, ?_, ?_⟩
      · unfold trailingUpper
        rw [← List.reverse_append, List.takeWhile_append_dropWhile, List.reverse_reverse]
      · rw [List.getLast?_reverse]
        have hnot := List.head?_dropWhile_not isUpperAZ s.data.reverse
        match hdw : (s.data.reverse.dropWhile isUpperAZ).head? with
        | none => exact Or.inl rfl
        | some c0 =>
            rw [hdw] at hnot
            exact Or.inr ⟨c0, rfl, hnot⟩
  · intro hnone
    unfold extract_nacionalidad
    rw [if_pos ?hempty]
    case hempty =>
      unfold trailingUpper
      match hrev : s.data.reverse with
      | [] => rfl
      | c :: rest =>
          have hlast : s.data.getLast? = some c := by
            rw [← List.head?_reverse, hrev]; rfl
          rw [List.takeWhile_cons, hnone c hlast]
          rfl

/-- Witness for the C8 theorem: a cell ending in the code `ESP` yields
a nonempty all-uppercase trailing token preceded by a non-uppercase
character, and concretely the full three-letter code `ESP`; a cell with
no trailing uppercase letter yields missing. -/
theorem extract_nacionalidad_spec_witness :
    (∃ t : String, extract_nacionalidad "es ESP" = some t ∧ t.data ≠ []
      ∧ t.data.all isUpperAZ = true
      ∧ ∃ pre, "es ESP".data = pre ++ t.data
          ∧ (pre.getLast? = none
             ∨ ∃ c0 : Char, pre.getLast? = some c0 ∧ isUpperAZ c0 = false))
    ∧ extract_nacionalidad "es ESP" = some "ESP"
    ∧ extract_nacionalidad "esp" = none :=
  ⟨(extract_nacionalidad_spec "es ESP").1 'P' (by decide) (by decide),
   by decide,
   (extract_nacionalidad_spec "esp").2 (by decide)⟩

/-- C9, counterexample.  A failing fetch that returns a partial table:
for a non-aggregated league the fallback builds the frame from the
comment-embedded table, and when that table has fewer than four columns
the `Comp` insertion at position four raises; the handler then returns
the partially extracted frame — unformatted, unfiltered, without the
`Comp` column — instead of the absent-table failure value. -/
theorem extract_tables_partial_on_insert_failure :
    extract_tables "La Liga" "Goalkeeping"
        ⟨true, false, some [], true, true,
         some ⟨true, ["Player", "Squad"], [["Messi", "PSG"]]⟩⟩
      = some ⟨["Player", "Squad"], [["Messi", "PSG"]]⟩ := by
  decide

/-- C9, amended.  The table component is absent on every failure path
that occurs before a table value is first constructed: URL resolution
failure, a `read_html` exception (which also covers network errors on
the direct strategy), a failed HTTP fetch, an absent comment marker, an
absent table element, an absent table body, and malformed body rows.  A
failure raised after the fallback frame is constructed (such as the
`Comp` insertion) instead returns the partially extracted table. -/
theorem extract_tables_none_on_early_failure (league stat : String) (env : FetchEnv) :
    (env.urlOk = false → extract_tables league stat env = none)
    ∧ (env.readHtml = none → extract_tables league stat env = none)
    ∧ (env.httpOk = false → fallback_extract league stat env = none)
    ∧ (env.commentFound = false → fallback_extract league stat env = none)
    ∧ (env.tableElem = none → fallback_extract league stat env = none)
    ∧ (∀ t : ParsedTable, env.tableElem = some t → t.hasTbody = false →
        fallback_extract league stat env = none)
    ∧ (∀ t : ParsedTable, env.tableElem = some t →
        ¬(t.rows = [] ∨ (t.rows.map List.length).foldr max 0 = t.headings.length) →
        fallback_extract league stat env = none) := by
  refine ⟨?_, ?_, ?_, ?_, ?_, ?_, ?_⟩
  · intro h
    simp [extract_tables, h]
  · intro h
    by_cases hu : env.urlOk = false <;> simp [extract_tables, h, hu]
  · intro h
    simp [fallback_extract, h]
  · intro h
    by_cases hh : env.httpOk = false <;> simp [fallback_extract, h, hh]
  · intro h
    by_cases hh : env.httpOk = false
    · simp [fallback_extract, hh]
    · by_cases hcf : env.commentFound = false <;> simp [fallback_extract, h, hh, hcf]
  · intro t ht hb
    by_cases hh : env.httpOk = false
    · simp [fallback_extract, hh]
    · by_cases hcf : env.commentFound = false <;> simp [fallback_extract, ht, hb, hh, hcf]
  · intro t ht hw
    by_cases hh : env.httpOk = false
    · simp [fallback_extract, hh]
    · by_cases hcf : env.commentFound = false
      · simp [fallback_extract, hh, hcf]
      · by_cases hb : t.hasTbody = false <;>
          simp [fallback_extract, ht, hw, hh, hcf, hb]

/-- Witness for the amended C9 theorem: a fetch whose URL resolution
fails yields no table, and a fallback with no comment marker yields no
table. -/
theorem extract_tables_none_on_early_failure_witness :
    extract_tables "La Liga" "Shooting" ⟨false, false, none, false, false, none⟩ = none
    ∧ fallback_extract "La Liga" "Shooting" ⟨true, false, some [], true, false, none⟩ = none :=
  ⟨(extract_tables_none_on_early_failure "La Liga" "Shooting"
      ⟨false, false, none, false, false, none⟩).1 rfl,
   (extract_tables_none_on_early_failure "La Liga" "Shooting"
      ⟨true, false, some [], true, false, none⟩).2.2.2.1 rfl⟩

theorem insertAt_getElem {α : Type} (x : α) :
    ∀ (n : Nat) (l : List α), n ≤ l.length → (insertAt n x l)[n]? = some x := by
  intro n
  induction n with
  | zero => intro l _; simp [insertAt]
  | succ m ih =>
      intro l hl
      match l with
      | [] => simp at hl
      | a :: as =>
          have : insertAt (m + 1) x (a :: as) = a :: insertAt m x as := by
            simp [insertAt]
          rw [this]
          simpa using ih as (by simpa using hl)

/-- C10.  For a URL without the `Big5` marker the direct `read_html`
strategy's tables are never returned even when parsing succeeded: the
result is exactly the comment-embedded fallback's result; and for a
league other than the aggregated one, that fallback's `Comp` insertion
places a column named `Comp` at position four and writes the league
name at position four of every row. -/
theorem extract_tables_nonbig5_spec (league stat : String) (env : FetchEnv)
    (ts : List RawDf) (d : SDF) (r : List String)
    (h1 : env.urlOk = true) (h2 : env.readHtml = some ts) (h3 : env.urlBig5 = false)
    (h4 : 4 ≤ d.names.length) (h5 : 4 ≤ r.length) :
    extract_tables league stat env = fallback_extract league stat env
    ∧ (insertComp league d).names[4]? = some "Comp"
    ∧ (insertComp league d).rows = d.rows.map (fun row => insertAt 4 league row)
    ∧ (insertAt 4 league r)[4]? = some league := by
  refine ⟨?_, ?_, rfl, insertAt_getElem league 4 r h5⟩
  · simp [extract_tables, h1, h2, h3]
  · exact insertAt_getElem "Comp" 4 d.names h4

/-- Witness for the C10 theorem: a non-`Big5` environment in which
`read_html` succeeded, and a five-column frame receiving the `Comp`
column. -/
theorem extract_tables_nonbig5_spec_witness :
    extract_tables "La Liga" "Passing"
        ⟨true, false, some [⟨.single ["A"], [["1"]]⟩], true, true, none⟩
      = fallback_extract "La Liga" "Passing"
        ⟨true, false, some [⟨.single ["A"], [["1"]]⟩], true, true, none⟩
    ∧ (insertComp "La Liga" ⟨["Rk", "Player", "Nation", "Pos", "Squad"], []⟩).names[4]?
      = some "Comp"
    ∧ (insertComp "La Liga" ⟨["Rk", "Player", "Nation", "Pos", "Squad"], []⟩).rows
      = ([] : List (List String)).map (fun row => insertAt 4 "La Liga" row)
    ∧ (insertAt 4 "La Liga" ["Rk", "Lamine", "ESP", "FW", "Barcelona"])[4]?
      = some "La Liga" :=
  extract_tables_nonbig5_spec "La Liga" "Passing"
    ⟨true, false, some [⟨.single ["A"], [["1"]]⟩], true, true, none⟩
    [⟨.single ["A"], [["1"]]⟩] ⟨["Rk", "Player", "Nation", "Pos", "Squad"], []⟩
    ["Rk", "Lamine", "ESP", "FW", "Barcelona"]
    rfl rfl rfl (by decide) (by decide)

end Fbref
